import Mathlib

/-!
Verification of the schema-validation and aggregation core of the
china-province-map dashboard (`src/dashboard/routes/api.py`).

JSON values are embedded as the inductive `Dashboard.Json`; Python's
`bool`/number distinction is kept by separate constructors, so
`isinstance(v, (int, float)) and not isinstance(v, bool)` becomes a match
on the `num` constructor.  Numbers are modelled exactly as rationals.
Dict iteration order is the association-list order, matching Python's
insertion-ordered dicts.
-/

namespace Dashboard

/-- A parsed JSON value, as produced by `json.load`. -/
inductive Json where
  | null
  | bool (b : Bool)
  | num (q : ℚ)
  | str (s : String)
  | arr (elems : List Json)
  | obj (members : List (String × Json))

/-- First-match association lookup: Python's `d.get(k)` on a parsed JSON
object (keys are unique after parsing, so first match is the match). -/
def jget (members : List (String × Json)) (k : String) : Option Json :=
  match members with
  | [] => none
  | (k2, v) :: rest => if k2 = k then some v else jget rest k

/-- Python's `d.get(k, default)`. -/
def jgetD (members : List (String × Json)) (k : String) (d : Json) : Json :=
  match jget members k with
  | some v => v
  | none => d

/-- Python's `k in d`. -/
def hasKey (members : List (String × Json)) (k : String) : Bool :=
  match jget members k with
  | some _ => true
  | none => false

/-- Python truthiness of a JSON value (`bool(v)`): None, False, zero and
empty containers/strings are falsy. -/
def pyFalsy : Json → Bool
  | .null => true
  | .bool b => !b
  | .num q => decide (q = 0)
  | .str s => s.isEmpty
  | .arr es => es.isEmpty
  | .obj ms => ms.isEmpty

/-- `_is_number`: `isinstance(value, (int, float)) and not isinstance(value, bool)`. -/
def isNumber : Json → Bool
  | .num _ => true
  | _ => false

/-- `isinstance(v, dict)`. -/
def isObj : Json → Bool
  | .obj _ => true
  | _ => false

/-- `isinstance(v, str)`. -/
def isStr : Json → Bool
  | .str _ => true
  | _ => false

/-- `isinstance(v, list)`. -/
def isArr : Json → Bool
  | .arr _ => true
  | _ => false

/-- Severity of a validation finding. -/
inductive Level where
  | error
  | warning
deriving DecidableEq, Repr

/-- One validation finding: `{"level": ..., "path": ..., "message": ...}`. -/
structure Issue where
  level : Level
  path : String
  message : String
deriving DecidableEq, Repr

/-- The `summary` object of a validation report. -/
structure Summary where
  provinces : Nat
  errors : Nat
  warnings : Nat
deriving DecidableEq, Repr

/-- The full report returned by `_validate_provinces_schema`. -/
structure Report where
  ok : Bool
  summary : Summary
  issues : List Issue
deriving DecidableEq, Repr

/-- Issues for one metric entry (the body of the `for metric_key, metric in
metrics.items()` loop). -/
def metricIssues (basePath metricKey : String) (metric : Json) : List Issue :=
  let metricPath := basePath ++ ".metrics." ++ metricKey
  match metric with
  | .obj mf =>
    (match jget mf "value" with
     | none => [⟨.error, metricPath, "Missing required metric field \x27value\x27."⟩]
     | some v =>
       if isNumber v then []
       else [⟨.error, metricPath ++ ".value", "Metric value must be numeric."⟩]) ++
    (match jget mf "label" with
     | some l =>
       if isStr l then []
       else [⟨.warning, metricPath ++ ".label", "Metric label should be a string."⟩]
     | none => []) ++
    (match jget mf "unit" with
     | some u =>
       if isStr u then []
       else [⟨.warning, metricPath ++ ".unit", "Metric unit should be a string."⟩]
     | none => [])
  | _ => [⟨.error, metricPath, "Metric must be an object."⟩]

/-- Issues for one fab entry (the body of the `for i, fab in enumerate(fabs)`
loop). -/
def fabIssues (basePath : String) (i : Nat) (fab : Json) : List Issue :=
  let fabPath := basePath ++ ".fabs[" ++ toString i ++ "]"
  match fab with
  | .obj ff =>
    (if hasKey ff "name" then []
     else [⟨.warning, fabPath, "Fab is missing name."⟩]) ++
    (match jget ff "capacity_kwpm" with
     | none => []
     | some c =>
       if isNumber c then []
       else [⟨.warning, fabPath ++ ".capacity_kwpm", "Fab capacity_kwpm should be numeric."⟩])
  | _ => [⟨.error, fabPath, "Fab entry must be an object."⟩]

/-- Missing-required-field errors for a province object (the
`for field in ("name_en", "name_cn", "region", "metrics")` loop). -/
def requiredFieldIssues (basePath : String) (fields : List (String × Json)) : List Issue :=
  (["name_en", "name_cn", "region", "metrics"].filter (fun f => !hasKey fields f)).map
    (fun f => ⟨.error, basePath, "Missing required field \x27" ++ f ++ "\x27."⟩)

/-- The metrics block: `metrics = province.get("metrics", {})`, then either the
non-empty-object error or the per-metric loop. -/
def metricsSectionIssues (basePath : String) (fields : List (String × Json)) : List Issue :=
  match jgetD fields "metrics" (.obj []) with
  | .obj mkvs =>
    if mkvs.isEmpty then
      [⟨.error, basePath ++ ".metrics", "Metrics must be a non-empty object."⟩]
    else
      mkvs.flatMap (fun kv => metricIssues basePath kv.1 kv.2)
  | _ => [⟨.error, basePath ++ ".metrics", "Metrics must be a non-empty object."⟩]

/-- The fabs block: `fabs = province.get("fabs", [])`; a `None` value passes
silently, a list is checked element-wise, anything else is an error. -/
def fabsSectionIssues (basePath : String) (fields : List (String × Json)) : List Issue :=
  match jgetD fields "fabs" (.arr []) with
  | .null => []
  | .arr fs => fs.enum.flatMap (fun p => fabIssues basePath p.1 p.2)
  | _ => [⟨.error, basePath ++ ".fabs", "Fabs must be an array when provided."⟩]

/-- The companies block: `companies = province.get("companies", [])`; error only
when present, non-`None` and not a list. -/
def companiesSectionIssues (basePath : String) (fields : List (String × Json)) : List Issue :=
  match jgetD fields "companies" (.arr []) with
  | .null => []
  | .arr _ => []
  | _ => [⟨.error, basePath ++ ".companies", "Companies must be an array when provided."⟩]

/-- Issues for one `(adcode, province)` entry of the top-level mapping:
a non-object entry yields the single containment error and `continue`,
an object entry runs the four field-level blocks in source order. -/
def provinceIssues (adcode : String) (province : Json) : List Issue :=
  let basePath := "$." ++ adcode
  match province with
  | .obj fields =>
    requiredFieldIssues basePath fields ++
    metricsSectionIssues basePath fields ++
    fabsSectionIssues basePath fields ++
    companiesSectionIssues basePath fields
  | _ => [⟨.error, basePath, "Province entry must be an object."⟩]

/-- Count of issues at a given level (`sum(1 for i in issues if i["level"] == lvl)`). -/
def countLevel (l : Level) (issues : List Issue) : Nat :=
  (issues.filter (fun i => i.level = l)).length

/-- `_validate_provinces_schema`: the early non-dict return, else the per-entry
loop followed by the error/warning tallies. -/
def validate (provinces : Json) : Report :=
  match provinces with
  | .obj kvs =>
    let issues := kvs.flatMap (fun kv => provinceIssues kv.1 kv.2)
    let errors := countLevel .error issues
    let warnings := countLevel .warning issues
    { ok := errors = 0
      summary := { provinces := kvs.length, errors := errors, warnings := warnings }
      issues := issues }
  | _ =>
    { ok := false
      summary := { provinces := 0, errors := 1, warnings := 0 }
      issues := [⟨.error, "$", "Top-level payload must be an object keyed by adcode."⟩] }

/-- `get_province`, stripped of HTTP wrapping: `provinces.get(adcode)` followed
by the truthiness test; `none` is the 404 "Province not found" outcome. -/
def getProvince (provinces : List (String × Json)) (adcode : String) : Option Json :=
  match jget provinces adcode with
  | none => none
  | some v => if pyFalsy v then none else some v

/-- Python's `float(v)` on the values that can reach it in `_sum_revenue`
(numbers and `True`; other types raise, modelled as `none`). -/
def pyFloat : Json → Option ℚ
  | .num q => some q
  | .bool b => some (if b then 1 else 0)
  | _ => none

/-- `float(c.get("revenue_b_cny") or 0)` for one company object: a missing or
falsy value is replaced by 0 before coercion. -/
def revenueOf (c : List (String × Json)) : Option ℚ :=
  match jget c "revenue_b_cny" with
  | none => some 0
  | some v => if pyFalsy v then some 0 else pyFloat v

/-- `_sum_revenue`: sum of coerced revenues over the dict-typed entries; a
coercion failure anywhere is the raised exception, modelled as `none`. -/
def sumRevenue (companies : List Json) : Option ℚ :=
  companies.foldr
    (fun c acc =>
      match acc with
      | none => none
      | some s =>
        match c with
        | .obj kvs =>
          match revenueOf kvs with
          | none => none
          | some r => some (s + r)
        | _ => some s)
    (some 0)

/-- The `summary` object built by `get_company_profiles`. -/
structure CompanySummary where
  semi_count : Nat
  ai_count : Nat
  total_count : Nat
  semi_revenue_b_cny : ℚ
  ai_revenue_b_cny : ℚ
  total_revenue_b_cny : ℚ
deriving DecidableEq, Repr

/-- The summary construction in `get_company_profiles`: counts are list
lengths, revenue sums come from `_sum_revenue`, totals are the sums of the
per-group figures. -/
def summarize (semiCompanies aiCompanies : List Json) : Option CompanySummary :=
  match sumRevenue semiCompanies, sumRevenue aiCompanies with
  | some sr, some ar =>
    some
      { semi_count := semiCompanies.length
        ai_count := aiCompanies.length
        total_count := semiCompanies.length + aiCompanies.length
        semi_revenue_b_cny := sr
        ai_revenue_b_cny := ar
        total_revenue_b_cny := sr + ar }
  | _, _ => none

/-! ### Well-formedness predicates

These state the preconditions of the spec's universally-quantified
properties: a metric/fab/province that satisfies them triggers none of the
validator's checks. -/

/-- A metric object with a numeric `value` and string `label`/`unit` when
present. -/
def metricWF (metric : Json) : Bool :=
  match metric with
  | .obj mf =>
    (match jget mf "value" with
     | some v => isNumber v
     | none => false) &&
    (match jget mf "label" with
     | some l => isStr l
     | none => true) &&
    (match jget mf "unit" with
     | some u => isStr u
     | none => true)
  | _ => false

/-- A fab object carrying a `name` and a numeric `capacity_kwpm` when present. -/
def fabWF (fab : Json) : Bool :=
  match fab with
  | .obj ff =>
    hasKey ff "name" &&
    (match jget ff "capacity_kwpm" with
     | some c => isNumber c
     | none => true)
  | _ => false

/-- A province object with all required fields, a non-empty well-formed
metrics object, and `fabs`/`companies` absent or well-formed. -/
def provinceWF (province : Json) : Bool :=
  match province with
  | .obj fields =>
    hasKey fields "name_en" && hasKey fields "name_cn" && hasKey fields "region" &&
    (match jget fields "metrics" with
     | some (.obj mkvs) => !mkvs.isEmpty && mkvs.all (fun kv => metricWF kv.2)
     | _ => false) &&
    (match jget fields "fabs" with
     | none => true
     | some (.arr fs) => fs.all fabWF
     | some _ => false) &&
    (match jget fields "companies" with
     | none => true
     | some (.arr _) => true
     | some _ => false)
  | _ => false

/-- Every entry of the dataset is a well-formed province. -/
def datasetWF (kvs : List (String × Json)) : Bool :=
  kvs.all (fun kv => provinceWF kv.2)

/-- The single-province Zhejiang example from the spec's scenario. -/
def zhejiangDataset : List (String × Json) :=
  [("330000", .obj [
    ("name_en", .str "Zhejiang"),
    ("name_cn", .str "浙江"),
    ("region", .str "East"),
    ("metrics", .obj [("gdp", .obj [("value", .num (77/10)), ("unit", .str "trillion")])])])]

/-- A province whose single metric has a boolean `value`. -/
def boolMetricFields : List (String × Json) :=
  [("name_en", .str "A"), ("name_cn", .str "B"), ("region", .str "C"),
   ("metrics", .obj [("gdp", .obj [("value", .bool true)])])]

/-- An otherwise well-formed province whose `fabs` field is JSON `null`. -/
def nullFabsFields : List (String × Json) :=
  [("name_en", .str "A"), ("name_cn", .str "B"), ("region", .str "C"),
   ("metrics", .obj [("gdp", .obj [("value", .num 1)])]),
   ("fabs", .null)]

/-- A province whose `fabs` value is a number rather than an array. -/
def numFabsFields : List (String × Json) :=
  [("name_en", .str "A"), ("name_cn", .str "B"), ("region", .str "C"),
   ("metrics", .obj [("gdp", .obj [("value", .num 1)])]),
   ("fabs", .num 1)]

/-- A province with a malformed fab list: a string element, then an unnamed
fab with a non-numeric capacity. -/
def badFabsFields : List (String × Json) :=
  [("name_en", .str "A"), ("name_cn", .str "B"), ("region", .str "C"),
   ("metrics", .obj [("gdp", .obj [("value", .num 1)])]),
   ("fabs", .arr [.str "oops", .obj [("capacity_kwpm", .str "high")]])]

/-- A province whose `metrics` is present but empty. -/
def emptyMetricsFields : List (String × Json) :=
  [("name_en", .str "A"), ("name_cn", .str "B"), ("region", .str "C"),
   ("metrics", .obj [])]

/-- A province lacking the `metrics` key entirely. -/
def noMetricsFields : List (String × Json) :=
  [("name_en", .str "A"), ("name_cn", .str "B"), ("region", .str "C")]

/-- A minimal stored province entry used by the lookup examples. -/
def beijingEntry : Json := .obj [("name_en", .str "Beijing")]

/-! ### Helper lemmas -/

lemma flatMap_eq_nil_of {α β : Type} (l : List α) (f : α → List β)
    (h : ∀ x ∈ l, f x = []) : l.flatMap f = [] := by
  induction l with
  | nil => rfl
  | cons a t ih =>
    simp only [List.flatMap_cons, h a (List.mem_cons_self a t)]
    exact ih (fun x hx => h x (List.mem_cons_of_mem a hx))

lemma jget_eq_none_of_hasKey_false (members : List (String × Json)) (k : String)
    (h : hasKey members k = false) : jget members k = none := by
  unfold hasKey at h
  cases hj : jget members k with
  | none => rfl
  | some v => rw [hj] at h; exact absurd h (by simp)

lemma metricIssues_eq_nil (basePath metricKey : String) (metric : Json)
    (h : metricWF metric = true) : metricIssues basePath metricKey metric = [] := by
  cases metric with
  | obj mf =>
    simp only [metricWF, Bool.and_eq_true] at h
    obtain ⟨⟨hv, hl⟩, hu⟩ := h
    unfold metricIssues
    cases hjv : jget mf "value" with
    | none => rw [hjv] at hv; exact absurd hv (by simp)
    | some v =>
      rw [hjv] at hv
      simp only [] at hv
      cases hjl : jget mf "label" with
      | none =>
        cases hju : jget mf "unit" with
        | none => simp [hjv, hjl, hju, hv]
        | some u => rw [hju] at hu; simp only [] at hu; simp [hjv, hjl, hju, hv, hu]
      | some l =>
        rw [hjl] at hl
        simp only [] at hl
        cases hju : jget mf "unit" with
        | none => simp [hjv, hjl, hju, hv, hl]
        | some u => rw [hju] at hu; simp only [] at hu; simp [hjv, hjl, hju, hv, hl, hu]
  | null => simp [metricWF] at h
  | bool b => simp [metricWF] at h
  | num q => simp [metricWF] at h
  | str s => simp [metricWF] at h
  | arr es => simp [metricWF] at h

lemma fabIssues_eq_nil (basePath : String) (i : Nat) (fab : Json)
    (h : fabWF fab = true) : fabIssues basePath i fab = [] := by
  cases fab with
  | obj ff =>
    simp only [fabWF, Bool.and_eq_true] at h
    obtain ⟨hn, hc⟩ := h
    unfold fabIssues
    cases hjc : jget ff "capacity_kwpm" with
    | none => simp [hn, hjc]
    | some c => rw [hjc] at hc; simp only [] at hc; simp [hn, hjc, hc]
  | null => simp [fabWF] at h
  | bool b => simp [fabWF] at h
  | num q => simp [fabWF] at h
  | str s => simp [fabWF] at h
  | arr es => simp [fabWF] at h

lemma provinceIssues_eq_nil (adcode : String) (province : Json)
    (h : provinceWF province = true) : provinceIssues adcode province = [] := by
  cases province with
  | obj fields =>
    simp only [provinceWF, Bool.and_eq_true] at h
    obtain ⟨⟨⟨⟨⟨h1, h2⟩, h3⟩, hm⟩, hf⟩, hc⟩ := h
    have hreq : requiredFieldIssues ("$." ++ adcode) fields = [] := by
      simp [requiredFieldIssues, h1, h2, h3]
      cases hjm : jget fields "metrics" with
      | none => rw [hjm] at hm; simp at hm
      | some m => simp [hasKey, hjm]
    have hmet : metricsSectionIssues ("$." ++ adcode) fields = [] := by
      unfold metricsSectionIssues
      cases hjm : jget fields "metrics" with
      | none => rw [hjm] at hm; simp at hm
      | some m =>
        rw [hjm] at hm
        cases m with
        | obj mkvs =>
          simp only [Bool.and_eq_true, List.all_eq_true] at hm
          obtain ⟨hne, hall⟩ := hm
          have : mkvs.isEmpty = false := by
            cases he : mkvs.isEmpty
            · rfl
            · rw [he] at hne; exact absurd hne (by simp)
          simp only [jgetD, hjm, this, Bool.false_eq_true, if_false]
          exact flatMap_eq_nil_of _ _
            (fun kv hkv => metricIssues_eq_nil _ _ _ (hall kv hkv))
        | null => simp at hm
        | bool b => simp at hm
        | num q => simp at hm
        | str s => simp at hm
        | arr es => simp at hm
    have hfab : fabsSectionIssues ("$." ++ adcode) fields = [] := by
      unfold fabsSectionIssues
      cases hjf : jget fields "fabs" with
      | none => simp [jgetD, hjf]
      | some fv =>
        rw [hjf] at hf
        cases fv with
        | arr fs =>
          simp only [List.all_eq_true] at hf
          simp only [jgetD, hjf]
          exact flatMap_eq_nil_of _ _
            (fun p hp => fabIssues_eq_nil _ _ _
              (hf p.2 (List.getElem?_mem (List.mem_enum_iff_getElem?.mp hp))))
        | null => simp at hf
        | bool b => simp at hf
        | num q => simp at hf
        | str s => simp at hf
        | obj ms => simp at hf
    have hcomp : companiesSectionIssues ("$." ++ adcode) fields = [] := by
      unfold companiesSectionIssues
      cases hjc : jget fields "companies" with
      | none => simp [jgetD, hjc]
      | some cv =>
        rw [hjc] at hc
        cases cv with
        | arr cs => simp [jgetD, hjc]
        | null => simp at hc
        | bool b => simp at hc
        | num q => simp at hc
        | str s => simp at hc
        | obj ms => simp at hc
    simp [provinceIssues, hreq, hmet, hfab, hcomp]
  | null => simp [provinceWF] at h
  | bool b => simp [provinceWF] at h
  | num q => simp [provinceWF] at h
  | str s => simp [provinceWF] at h
  | arr es => simp [provinceWF] at h

lemma provinceIssues_nonObj (adcode : String) (v : Json) (hv : isObj v = false) :
    provinceIssues adcode v =
      [⟨.error, "$." ++ adcode, "Province entry must be an object."⟩] := by
  cases vatch : v with
  | obj fields => rw [vatch] at hv; simp [isObj] at hv
  | null => rfl
  | bool b => rfl
  | num q => rfl
  | str s => rfl
  | arr es => rfl

lemma flatMap_provinceIssues_eq_nil (kvs : List (String × Json)) (h : datasetWF kvs = true) :
    kvs.flatMap (fun kv => provinceIssues kv.1 kv.2) = [] :=
  flatMap_eq_nil_of _ _
    (fun kv hkv => provinceIssues_eq_nil _ _ (List.all_eq_true.mp h kv hkv))

lemma validate_of_datasetWF (kvs : List (String × Json)) (h : datasetWF kvs = true) :
    validate (.obj kvs) =
      { ok := true
        summary := { provinces := kvs.length, errors := 0, warnings := 0 }
        issues := [] } := by
  simp [validate, flatMap_provinceIssues_eq_nil kvs h, countLevel]

/-- C1: every well-formed province dataset (required fields present, metrics a
non-empty mapping of numeric-valued metrics with string label/unit when
present, fabs/companies absent or well-formed) validates with ok=true, zero
errors, zero warnings and an empty issue list. -/
theorem validate_ok_of_wellformed (kvs : List (String × Json)) (h : datasetWF kvs = true) :
    validate (.obj kvs) =
      { ok := true
        summary := { provinces := kvs.length, errors := 0, warnings := 0 }
        issues := [] } :=
  validate_of_datasetWF kvs h

/-- C1 witness: the Zhejiang example is well-formed and yields ok=true,
summary provinces=1 errors=0 warnings=0, issues=[]. -/
theorem validate_ok_of_wellformed_witness :
    datasetWF zhejiangDataset = true ∧
    validate (.obj zhejiangDataset) =
      { ok := true
        summary := { provinces := 1, errors := 0, warnings := 0 }
        issues := [] } :=
  ⟨by decide, validate_ok_of_wellformed zhejiangDataset (by decide)⟩

/-- C2: a dataset with exactly one non-object entry among otherwise
well-formed entries yields exactly one issue — an error at `$.<adcode>` — with
no field-level findings for the malformed entry, every entry (including the
malformed one) counted in `summary.provinces`, and no issues for the others. -/
theorem validate_single_malformed_entry (pre post : List (String × Json))
    (adcode : String) (v : Json) (hv : isObj v = false)
    (hpre : datasetWF pre = true) (hpost : datasetWF post = true) :
    validate (.obj (pre ++ (adcode, v) :: post)) =
      { ok := false
        summary := { provinces := pre.length + post.length + 1, errors := 1, warnings := 0 }
        issues := [⟨.error, "$." ++ adcode, "Province entry must be an object."⟩] } := by
  have h1 := flatMap_provinceIssues_eq_nil pre hpre
  have h2 := flatMap_provinceIssues_eq_nil post hpost
  have h3 := provinceIssues_nonObj adcode v hv
  simp [validate, List.flatMap_append, h1, h2, h3, countLevel]
  omega

/-- C2 witness: Zhejiang plus the string entry "bad" under 999999 gives one
error at `$.999999`, two counted provinces and a clean Zhejiang. -/
theorem validate_single_malformed_entry_witness :
    isObj (Json.str "bad") = false ∧
    validate (.obj (zhejiangDataset ++ ("999999", Json.str "bad") :: [])) =
      { ok := false
        summary := { provinces := 2, errors := 1, warnings := 0 }
        issues := [⟨.error, "$." ++ "999999", "Province entry must be an object."⟩] } :=
  ⟨rfl, validate_single_malformed_entry zhejiangDataset [] "999999" (Json.str "bad")
    rfl (by decide) rfl⟩

lemma mem_validate_issues_of_mem (kvs : List (String × Json)) (adcode : String)
    (p : Json) (issue : Issue) (hmem : (adcode, p) ∈ kvs)
    (h : issue ∈ provinceIssues adcode p) :
    issue ∈ (validate (.obj kvs)).issues :=
  List.mem_flatMap.mpr ⟨(adcode, p), hmem, h⟩

lemma mem_provinceIssues_of_metricsSection (adcode : String)
    (fields : List (String × Json)) (issue : Issue)
    (h : issue ∈ metricsSectionIssues ("$." ++ adcode) fields) :
    issue ∈ provinceIssues adcode (.obj fields) := by
  simp only [provinceIssues, List.mem_append]
  tauto

lemma mem_provinceIssues_of_fabsSection (adcode : String)
    (fields : List (String × Json)) (issue : Issue)
    (h : issue ∈ fabsSectionIssues ("$." ++ adcode) fields) :
    issue ∈ provinceIssues adcode (.obj fields) := by
  simp only [provinceIssues, List.mem_append]
  tauto

/-- C3: a metric whose `value` is present but boolean is reported as a
non-numeric error at `$.<adcode>.metrics.<key>.value` — booleans are excluded
from the numeric type despite being int-like in Python. -/
theorem metric_bool_value_error (kvs : List (String × Json)) (adcode : String)
    (fields mkvs mf : List (String × Json)) (key : String) (b : Bool)
    (hmem : (adcode, Json.obj fields) ∈ kvs)
    (hm : jget fields "metrics" = some (.obj mkvs))
    (hkm : (key, Json.obj mf) ∈ mkvs)
    (hval : jget mf "value" = some (.bool b)) :
    (⟨.error, "$." ++ adcode ++ ".metrics." ++ key ++ ".value",
      "Metric value must be numeric."⟩ : Issue) ∈ (validate (.obj kvs)).issues := by
  apply mem_validate_issues_of_mem kvs adcode (.obj fields) _ hmem
  apply mem_provinceIssues_of_metricsSection
  have hne : mkvs.isEmpty = false := by
    cases mkvs with
    | nil => cases hkm
    | cons a t => rfl
  have hD : jgetD fields "metrics" (.obj []) = Json.obj mkvs := by
    simp [jgetD, hm]
  unfold metricsSectionIssues
  rw [hD]
  simp only [hne, Bool.false_eq_true, if_false]
  apply List.mem_flatMap.mpr ⟨(key, Json.obj mf), hkm, ?_⟩
  simp [metricIssues, hval, isNumber]

/-- C3 witness: a boolean gdp value under adcode X yields the non-numeric
error at `$.X.metrics.gdp.value`. -/
theorem metric_bool_value_error_witness :
    (⟨.error, "$." ++ "X" ++ ".metrics." ++ "gdp" ++ ".value",
      "Metric value must be numeric."⟩ : Issue)
      ∈ (validate (.obj [("X", .obj boolMetricFields)])).issues :=
  metric_bool_value_error _ "X" boolMetricFields _ _ "gdp" true
    (List.mem_singleton.mpr rfl) rfl (List.mem_singleton.mpr rfl) rfl

/-- C4: validation findings are data, never exceptions — `validate` is a total
function into `Report` — and the returned `ok` flag is true exactly when the
issue list holds no error-level issue. -/
theorem validate_ok_iff_no_errors (j : Json) :
    (validate j).ok = true ↔ countLevel .error (validate j).issues = 0 := by
  cases j with
  | obj kvs => simp [validate]
  | null => simp [validate, countLevel]
  | bool b => simp [validate, countLevel]
  | num q => simp [validate, countLevel]
  | str s => simp [validate, countLevel]
  | arr es => simp [validate, countLevel]

/-- C4 witness: the equivalence instantiated at the Zhejiang dataset. -/
theorem validate_ok_iff_no_errors_witness :
    (validate (.obj zhejiangDataset)).ok = true ↔
      countLevel .error (validate (.obj zhejiangDataset)).issues = 0 :=
  validate_ok_iff_no_errors (.obj zhejiangDataset)

/-- C5: the summary of two empty company lists is all zeros; one semiconductor
record with revenue 2.5 and one AI record with revenue 1.5 give counts 1/1/2
and revenues 2.5/1.5/4.0, the totals being the sums of the per-group figures. -/
theorem summarize_examples :
    summarize [] [] = some ⟨0, 0, 0, 0, 0, 0⟩ ∧
    summarize [Json.obj [("revenue_b_cny", Json.num (5/2))]]
        [Json.obj [("revenue_b_cny", Json.num (3/2))]] =
      some ⟨1, 1, 2, 5/2, 3/2, 4⟩ ∧
    (2 : Nat) = 1 + 1 ∧ (4 : ℚ) = 5/2 + 3/2 := by
  refine ⟨?_, ?_, rfl, by norm_num⟩
  · simp [summarize, sumRevenue]
  · simp [summarize, sumRevenue, revenueOf, jget, pyFalsy, pyFloat]
    norm_num

/-- C6: `getProvince` returns the stored entry when the adcode maps to a
non-falsy value, and the NotFound outcome (`none`) when the key is absent or
the stored value is falsy. -/
theorem getProvince_spec (kvs : List (String × Json)) (adcode : String) :
    (jget kvs adcode = none → getProvince kvs adcode = none) ∧
    (∀ v, jget kvs adcode = some v → pyFalsy v = true → getProvince kvs adcode = none) ∧
    (∀ v, jget kvs adcode = some v → pyFalsy v = false → getProvince kvs adcode = some v) := by
  refine ⟨fun h => ?_, fun v h hf => ?_, fun v h hf => ?_⟩
  · simp [getProvince, h]
  · simp [getProvince, h, hf]
  · simp [getProvince, h, hf]

/-- C6 witness: with the dataset `{"110000": {...}}`, looking up 110000
returns the stored entry and looking up 999999 returns NotFound. -/
theorem getProvince_spec_witness :
    getProvince [("110000", beijingEntry)] "110000" = some beijingEntry ∧
    getProvince [("110000", beijingEntry)] "999999" = none :=
  ⟨(getProvince_spec [("110000", beijingEntry)] "110000").2.2 beijingEntry rfl rfl,
   (getProvince_spec [("110000", beijingEntry)] "999999").1 rfl⟩

lemma mem_provinceIssues_of_requiredField (adcode : String)
    (fields : List (String × Json)) (issue : Issue)
    (h : issue ∈ requiredFieldIssues ("$." ++ adcode) fields) :
    issue ∈ provinceIssues adcode (.obj fields) := by
  simp only [provinceIssues, List.mem_append]
  tauto

lemma fabsSection_nonlist (bp : String) (fields : List (String × Json)) (v : Json)
    (h : jget fields "fabs" = some v) (hnull : v ≠ Json.null) (harr : isArr v = false) :
    fabsSectionIssues bp fields =
      [⟨.error, bp ++ ".fabs", "Fabs must be an array when provided."⟩] := by
  have hD : jgetD fields "fabs" (.arr []) = v := by simp [jgetD, h]
  unfold fabsSectionIssues
  rw [hD]
  cases v with
  | null => exact absurd rfl hnull
  | arr xs => simp [isArr] at harr
  | bool b => rfl
  | num q => rfl
  | str s => rfl
  | obj ms => rfl

lemma fabsSection_arr (bp : String) (fields : List (String × Json)) (xs : List Json)
    (h : jget fields "fabs" = some (.arr xs)) :
    fabsSectionIssues bp fields = xs.enum.flatMap (fun p => fabIssues bp p.1 p.2) := by
  have hD : jgetD fields "fabs" (.arr []) = Json.arr xs := by simp [jgetD, h]
  unfold fabsSectionIssues
  rw [hD]

lemma fabIssues_nonObj (bp : String) (i : Nat) (fab : Json) (h : isObj fab = false) :
    fabIssues bp i fab =
      [⟨.error, bp ++ ".fabs[" ++ toString i ++ "]", "Fab entry must be an object."⟩] := by
  cases fab with
  | obj ff => simp [isObj] at h
  | null => rfl
  | bool b => rfl
  | num q => rfl
  | str s => rfl
  | arr es => rfl

/-- C7 counterexample: an otherwise well-formed province whose `fabs` is JSON
`null` — the field is present and not a sequence, yet the validator emits no
issue at all, contradicting the claim that any present non-sequence `fabs`
yields an error at `$.<adcode>.fabs` (the code skips `None` explicitly). -/
theorem fabs_null_no_error :
    jget nullFabsFields "fabs" = some Json.null ∧
    isArr Json.null = false ∧
    validate (.obj [("330000", .obj nullFabsFields)]) =
      { ok := true
        summary := { provinces := 1, errors := 0, warnings := 0 }
        issues := [] } ∧
    (⟨.error, "$." ++ "330000" ++ ".fabs",
      "Fabs must be an array when provided."⟩ : Issue)
      ∉ (validate (.obj [("330000", .obj nullFabsFields)])).issues :=
  ⟨rfl, rfl, by decide, by decide⟩

/-- C7 (amended): for an object province entry, a present `fabs` value that is
neither `null` nor a sequence yields an error at `$.<adcode>.fabs`; if it is a
sequence, a non-object element at index i yields exactly the one error at
`$.<adcode>.fabs[i]` with no further checks on that element, an object element
without `name` yields a warning, and an object element with a non-numeric
`capacity_kwpm` yields a warning. -/
theorem fabs_validation_amended (kvs : List (String × Json)) (adcode : String)
    (fields : List (String × Json)) (hmem : (adcode, Json.obj fields) ∈ kvs) :
    (∀ v, jget fields "fabs" = some v → v ≠ Json.null → isArr v = false →
      (⟨.error, "$." ++ adcode ++ ".fabs", "Fabs must be an array when provided."⟩ : Issue)
        ∈ (validate (.obj kvs)).issues) ∧
    (∀ xs i fab, jget fields "fabs" = some (Json.arr xs) → (i, fab) ∈ xs.enum →
      isObj fab = false →
      fabIssues ("$." ++ adcode) i fab =
        [⟨.error, "$." ++ adcode ++ ".fabs[" ++ toString i ++ "]",
          "Fab entry must be an object."⟩] ∧
      (⟨.error, "$." ++ adcode ++ ".fabs[" ++ toString i ++ "]",
        "Fab entry must be an object."⟩ : Issue) ∈ (validate (.obj kvs)).issues) ∧
    (∀ xs i ff, jget fields "fabs" = some (Json.arr xs) → (i, Json.obj ff) ∈ xs.enum →
      hasKey ff "name" = false →
      (⟨.warning, "$." ++ adcode ++ ".fabs[" ++ toString i ++ "]",
        "Fab is missing name."⟩ : Issue) ∈ (validate (.obj kvs)).issues) ∧
    (∀ xs i ff c, jget fields "fabs" = some (Json.arr xs) → (i, Json.obj ff) ∈ xs.enum →
      jget ff "capacity_kwpm" = some c → isNumber c = false →
      (⟨.warning, "$." ++ adcode ++ ".fabs[" ++ toString i ++ "]" ++ ".capacity_kwpm",
        "Fab capacity_kwpm should be numeric."⟩ : Issue)
        ∈ (validate (.obj kvs)).issues) := by
  refine ⟨fun v hv hnull harr => ?_, fun xs i fab hv hi hobj => ?_,
    fun xs i ff hv hi hname => ?_, fun xs i ff c hv hi hc hnum => ?_⟩
  · apply mem_validate_issues_of_mem kvs adcode (.obj fields) _ hmem
    apply mem_provinceIssues_of_fabsSection
    rw [fabsSection_nonlist ("$." ++ adcode) fields v hv hnull harr]
    exact List.mem_singleton.mpr rfl
  · refine ⟨fabIssues_nonObj _ i fab hobj, ?_⟩
    apply mem_validate_issues_of_mem kvs adcode (.obj fields) _ hmem
    apply mem_provinceIssues_of_fabsSection
    rw [fabsSection_arr ("$." ++ adcode) fields xs hv]
    apply List.mem_flatMap.mpr ⟨(i, fab), hi, ?_⟩
    rw [fabIssues_nonObj _ i fab hobj]
    exact List.mem_singleton.mpr rfl
  · apply mem_validate_issues_of_mem kvs adcode (.obj fields) _ hmem
    apply mem_provinceIssues_of_fabsSection
    rw [fabsSection_arr ("$." ++ adcode) fields xs hv]
    apply List.mem_flatMap.mpr ⟨(i, Json.obj ff), hi, ?_⟩
    simp [fabIssues, hname]
  · apply mem_validate_issues_of_mem kvs adcode (.obj fields) _ hmem
    apply mem_provinceIssues_of_fabsSection
    rw [fabsSection_arr ("$." ++ adcode) fields xs hv]
    apply List.mem_flatMap.mpr ⟨(i, Json.obj ff), hi, ?_⟩
    simp [fabIssues, hc, hnum]

/-- C7 witness: a numeric `fabs` yields the array error, and a fab list with a
string element and an unnamed non-numeric-capacity fab yields the element
error and the two warnings. -/
theorem fabs_validation_amended_witness :
    (⟨.error, "$." ++ "X" ++ ".fabs", "Fabs must be an array when provided."⟩ : Issue)
      ∈ (validate (.obj [("X", .obj numFabsFields)])).issues ∧
    (⟨.error, "$." ++ "Y" ++ ".fabs[" ++ toString 0 ++ "]",
      "Fab entry must be an object."⟩ : Issue)
      ∈ (validate (.obj [("Y", .obj badFabsFields)])).issues ∧
    (⟨.warning, "$." ++ "Y" ++ ".fabs[" ++ toString 1 ++ "]",
      "Fab is missing name."⟩ : Issue)
      ∈ (validate (.obj [("Y", .obj badFabsFields)])).issues ∧
    (⟨.warning, "$." ++ "Y" ++ ".fabs[" ++ toString 1 ++ "]" ++ ".capacity_kwpm",
      "Fab capacity_kwpm should be numeric."⟩ : Issue)
      ∈ (validate (.obj [("Y", .obj badFabsFields)])).issues :=
  ⟨(fabs_validation_amended _ "X" numFabsFields (List.mem_singleton.mpr rfl)).1
      (Json.num 1) rfl (fun h => Json.noConfusion h) rfl,
   ((fabs_validation_amended _ "Y" badFabsFields (List.mem_singleton.mpr rfl)).2.1
      _ 0 (Json.str "oops") rfl (by simp [List.enum, List.enumFrom]) rfl).2,
   (fabs_validation_amended _ "Y" badFabsFields (List.mem_singleton.mpr rfl)).2.2.1
      _ 1 [("capacity_kwpm", Json.str "high")] rfl (by simp [List.enum, List.enumFrom]) rfl,
   (fabs_validation_amended _ "Y" badFabsFields (List.mem_singleton.mpr rfl)).2.2.2
      _ 1 [("capacity_kwpm", Json.str "high")] (Json.str "high") rfl
      (by simp [List.enum, List.enumFrom]) rfl rfl⟩

/-- C8: a province entry whose `metrics` is an empty object produces an
error-level issue at `$.<adcode>.metrics`. -/
theorem metrics_empty_error (kvs : List (String × Json)) (adcode : String)
    (fields : List (String × Json))
    (hmem : (adcode, Json.obj fields) ∈ kvs)
    (hm : jget fields "metrics" = some (Json.obj [])) :
    (⟨.error, "$." ++ adcode ++ ".metrics",
      "Metrics must be a non-empty object."⟩ : Issue) ∈ (validate (.obj kvs)).issues := by
  apply mem_validate_issues_of_mem kvs adcode (.obj fields) _ hmem
  apply mem_provinceIssues_of_metricsSection
  have hD : jgetD fields "metrics" (.obj []) = Json.obj [] := by simp [jgetD, hm]
  unfold metricsSectionIssues
  rw [hD]
  simp

/-- C8 witness: a province with `metrics: {}` under adcode E triggers the
empty-metrics error at `$.E.metrics`. -/
theorem metrics_empty_error_witness :
    (⟨.error, "$." ++ "E" ++ ".metrics",
      "Metrics must be a non-empty object."⟩ : Issue)
      ∈ (validate (.obj [("E", .obj emptyMetricsFields)])).issues :=
  metrics_empty_error _ "E" emptyMetricsFields (List.mem_singleton.mpr rfl) rfl

lemma countLevel_error_add_warning (issues : List Issue) :
    countLevel .error issues + countLevel .warning issues = issues.length := by
  induction issues with
  | nil => rfl
  | cons i t ih =>
    unfold countLevel at ih ⊢
    cases hl : i.level <;> simp [List.filter_cons, hl] <;> omega

/-- C9: every report's error and warning tallies sum to the number of issues,
every issue is error- or warning-level, and for a mapping input the province
count equals the number of top-level entries, malformed ones included. -/
theorem validate_report_invariants (j : Json) :
    (validate j).summary.errors + (validate j).summary.warnings = (validate j).issues.length ∧
    (∀ i, i ∈ (validate j).issues → i.level = Level.error ∨ i.level = Level.warning) ∧
    (∀ kvs, j = Json.obj kvs → (validate j).summary.provinces = kvs.length) := by
  refine ⟨?_, fun i _ => ?_, fun kvs hk => ?_⟩
  · cases j with
    | obj kvs => exact countLevel_error_add_warning _
    | null => rfl
    | bool b => rfl
    | num q => rfl
    | str s => rfl
    | arr es => rfl
  · cases i.level
    · exact Or.inl rfl
    · exact Or.inr rfl
  · subst hk
    rfl

/-- C9 witness: the invariants instantiated on the Zhejiang dataset. -/
theorem validate_report_invariants_witness :
    (validate (.obj zhejiangDataset)).summary.errors +
        (validate (.obj zhejiangDataset)).summary.warnings =
      (validate (.obj zhejiangDataset)).issues.length ∧
    (validate (.obj zhejiangDataset)).summary.provinces = zhejiangDataset.length :=
  ⟨(validate_report_invariants (.obj zhejiangDataset)).1,
   (validate_report_invariants (.obj zhejiangDataset)).2.2 zhejiangDataset rfl⟩

/-- C10: a province object lacking the `metrics` key draws two errors from the
one omission: the missing-required-field error at `$.<adcode>` (emitted exactly
once by the required-field pass) and, because the absent field defaults to an
empty mapping, the non-empty-object error at `$.<adcode>.metrics` (the whole
metrics block output); both appear in the report of any dataset holding the
entry. -/
theorem missing_metrics_two_errors (adcode : String) (fields : List (String × Json))
    (h : hasKey fields "metrics" = false) :
    (⟨.error, "$." ++ adcode, "Missing required field \x27metrics\x27."⟩ : Issue)
      ∈ requiredFieldIssues ("$." ++ adcode) fields ∧
    ((requiredFieldIssues ("$." ++ adcode) fields).filter
        (fun i => i.message = "Missing required field \x27metrics\x27.")).length = 1 ∧
    metricsSectionIssues ("$." ++ adcode) fields =
      [⟨.error, "$." ++ adcode ++ ".metrics", "Metrics must be a non-empty object."⟩] ∧
    (∀ kvs, (adcode, Json.obj fields) ∈ kvs →
      (⟨.error, "$." ++ adcode, "Missing required field \x27metrics\x27."⟩ : Issue)
        ∈ (validate (.obj kvs)).issues ∧
      (⟨.error, "$." ++ adcode ++ ".metrics",
        "Metrics must be a non-empty object."⟩ : Issue) ∈ (validate (.obj kvs)).issues) := by
  have hj : jget fields "metrics" = none := jget_eq_none_of_hasKey_false fields "metrics" h
  have hmem1 : (⟨.error, "$." ++ adcode, "Missing required field \x27metrics\x27."⟩ : Issue)
      ∈ requiredFieldIssues ("$." ++ adcode) fields :=
    List.mem_map.mpr ⟨"metrics", List.mem_filter.mpr ⟨by simp, by simp [h]⟩, rfl⟩
  have hsec : metricsSectionIssues ("$." ++ adcode) fields =
      [⟨.error, "$." ++ adcode ++ ".metrics", "Metrics must be a non-empty object."⟩] := by
    unfold metricsSectionIssues
    have hD : jgetD fields "metrics" (.obj []) = Json.obj [] := by simp [jgetD, hj]
    rw [hD]
    rfl
  refine ⟨hmem1, ?_, hsec, fun kvs hkv => ⟨?_, ?_⟩⟩
  · cases h1 : hasKey fields "name_en" <;> cases h2 : hasKey fields "name_cn" <;>
      cases h3 : hasKey fields "region" <;>
      simp [requiredFieldIssues, h, h1, h2, h3]
  · exact mem_validate_issues_of_mem kvs adcode (.obj fields) _ hkv
      (mem_provinceIssues_of_requiredField adcode fields _ hmem1)
  · exact mem_validate_issues_of_mem kvs adcode (.obj fields) _ hkv
      (mem_provinceIssues_of_metricsSection adcode fields _
        (hsec ▸ List.mem_singleton.mpr rfl))

/-- C10 witness: a province with only the three name/region fields yields both
the missing-metrics error at `$.Z` and the empty-metrics error at `$.Z.metrics`. -/
theorem missing_metrics_two_errors_witness :
    hasKey noMetricsFields "metrics" = false ∧
    (⟨.error, "$." ++ "Z", "Missing required field \x27metrics\x27."⟩ : Issue)
      ∈ (validate (.obj [("Z", .obj noMetricsFields)])).issues ∧
    (⟨.error, "$." ++ "Z" ++ ".metrics",
      "Metrics must be a non-empty object."⟩ : Issue)
      ∈ (validate (.obj [("Z", .obj noMetricsFields)])).issues :=
  ⟨rfl,
   ((missing_metrics_two_errors "Z" noMetricsFields rfl).2.2.2 _
      (List.mem_singleton.mpr rfl)).1,
   ((missing_metrics_two_errors "Z" noMetricsFields rfl).2.2.2 _
      (List.mem_singleton.mpr rfl)).2⟩

end Dashboard
